import Mathlib

/-!
Verification of the hybrid document-retrieval engine of `llm-aigent-demo`
against its natural-language specification.

The frontend helpers (`frontend/lib/api.js` and the storage utilities) are
embedded directly from the JavaScript sources.  The backend retrieval core
(`rag/service.py`, `rag/graph_rag.py`) is not part of the source snapshot —
only its README and its frontend callers are — so those components are
modelled from the specification text; every such definition is marked
`Modelled from the spec:` in its doc comment.
-/

namespace Retrieval

/-- A JavaScript/JSON value, as needed to embed the frontend helpers. -/
inductive JsVal where
  | jnull
  | jbool (b : Bool)
  | jnum (n : Int)
  | jstr (s : String)
  | jarr (elems : List JsVal)
  | jobj (fields : List (String × JsVal))

/-! ### Frontend storage helpers (embedded from `src/unnamed/part_000`) -/

/-- Embedding of `safeJsonParse` from the storage helpers.  `parse` models
`JSON.parse`, which either returns a value or throws; the incoming `value`
is a string or `null` (`none`), and the empty string is the only falsy
string value `getItem` can produce. -/
def safeJsonParse (parse : String → Except String JsVal)
    (value : Option String) (fallback : JsVal) : JsVal :=
  match value with
  | none => fallback
  | some s =>
    if s = "" then fallback
    else
      match parse s with
      | .ok v => v
      | .error _ => fallback

/-- Embedding of `loadFromStorage`: when `window` is undefined (server-side
rendering) the fallback is returned; otherwise the stored entry, looked up
with `storage` (modelling `window.localStorage.getItem`), is parsed with
`safeJsonParse`. -/
def loadFromStorage (parse : String → Except String JsVal)
    (windowDefined : Bool) (storage : String → Option String)
    (key : String) (fallback : JsVal) : JsVal :=
  if windowDefined then safeJsonParse parse (storage key) fallback
  else fallback

/-- Embedding of `loadFromSession`; identical to `loadFromStorage` except the
lookup models `window.sessionStorage.getItem`. -/
def loadFromSession (parse : String → Except String JsVal)
    (windowDefined : Bool) (session : String → Option String)
    (key : String) (fallback : JsVal) : JsVal :=
  if windowDefined then safeJsonParse parse (session key) fallback
  else fallback

/-! ### Frontend `apiCall` (embedded from `src/frontend/lib/api.js`) -/

/-- The `responseType` parameter of `apiCall`. -/
inductive RespType where
  | json
  | blob
  deriving DecidableEq

/-- The observable parts of a `fetch` `Response`: the `ok` flag, the HTTP
status, and the results of `resp.json()` / `resp.blob()`, each of which can
reject with a message. -/
structure FetchResponse where
  ok : Bool
  status : Nat
  jsonBody : Except String JsVal
  blobBody : Except String (List Nat)

/-- Outcome of an `await fetch(url, init)`: a network rejection, an abort
rejection fired by the timeout controller, or a response. -/
inductive FetchOutcome where
  | networkError (msg : String)
  | timeoutAbort (msg : String)
  | response (resp : FetchResponse)

/-- The `data` argument of `apiCall`: an arbitrary JavaScript value.  A
JSON-representable value is `plain`; a value on which `JSON.stringify`
throws a `TypeError` — a circular structure or a BigInt, neither of which a
well-founded JSON tree can hold directly — is `unserializable`, tagged with
the engine's complaint. -/
inductive JsData where
  | plain (v : JsVal)
  | unserializable (complaint : String)

/-- Embedding of `JSON.stringify` on the `data` argument: it throws a
`TypeError` on a circular structure or BigInt and succeeds otherwise; the
serialized text of a successful call is abstracted as the JSON value
itself. -/
def jsonStringify : JsData → Except String JsVal
  | .plain v => .ok v
  | .unserializable complaint => .error ("TypeError: " ++ complaint)

/-- Embedding of `window.btoa`: it throws `InvalidCharacterError` when the
string holds any character above U+00FF, and otherwise returns the base64
encoding, abstracted here as the raw string. -/
def btoa (s : String) : Except String String :=
  if s.data.all (fun c => c.toNat ≤ 255) then .ok s
  else .error "InvalidCharacterError"

/-- Embedding of `makeBasicAuthHeader` (api.js lines 9-13): empty when
`window` is undefined, otherwise `Basic ` followed by
`btoa(username:password)` — so it throws whenever `btoa` does. -/
def makeBasicAuthHeader (windowDefined : Bool) (username password : String) :
    Except String String :=
  if windowDefined then
    (btoa (username ++ ":" ++ password)).map (fun t => "Basic " ++ t)
  else .ok ""

/-- The inputs of `apiCall`. -/
structure ApiInput where
  endpoint : String
  method : String
  data : Option JsData
  auth : Option (String × String)
  timeoutMs : Nat
  headers : List (String × String)
  responseType : RespType

/-- The request-init record `apiCall` assembles before calling `fetch`. -/
structure RequestInit where
  method : String
  headers : List (String × String)
  body : Option JsVal

/-- The init record built by `apiCall` lines 30-45, which run before the
try block: default content type, caller headers, optional basic-auth
header (line 40, via `window.btoa` — can throw), and for non-GET, non-HEAD
methods with non-null data a body serialized by `JSON.stringify` (line 44
— can throw).  An exception here escapes `apiCall` uncaught. -/
def buildInit (windowDefined : Bool) (i : ApiInput) :
    Except String RequestInit := do
  let authHeaders ←
    match i.auth with
    | some (u, p) =>
      if u ≠ "" ∧ p ≠ "" then
        (makeBasicAuthHeader windowDefined u p).map
          (fun h => [("Authorization", h)])
      else pure []
    | none => pure []
  let body ←
    if i.method = "GET" ∨ i.method = "HEAD" then pure none
    else
      match i.data with
      | none => pure none
      | some d => (jsonStringify d).map some
  pure
    { method := i.method
    , headers := [("Content-Type", "application/json")] ++ i.headers ++
        authHeaders
    , body := body }

/-- What a call to `apiCall` can resolve to: a parsed JSON value or a blob. -/
inductive ApiResult where
  | resolvedJson (v : JsVal)
  | resolvedBlob (b : List Nat)

/-- The object `apiCall` resolves to from its catch block:
`\x7b status: 'FAILED', error: String(e) \x7d`. -/
def failedResult (msg : String) : JsVal :=
  .jobj [("status", .jstr "FAILED"), ("error", .jstr msg)]

/-- The body of the try block of `apiCall` (lines 47-57): an `Except` value,
where `.error` marks a JavaScript exception escaping to the catch block.
In blob mode a non-OK status throws `HTTP <status>` and a blob-read
rejection propagates; in json mode a body-parse rejection is swallowed by
`.catch(() => (\x7b\x7d))` into an empty object. -/
def apiCallTry (i : ApiInput) (outcome : FetchOutcome) : Except String ApiResult :=
  match outcome with
  | .networkError msg => .error msg
  | .timeoutAbort msg => .error msg
  | .response resp =>
    match i.responseType with
    | .blob =>
      if resp.ok then
        match resp.blobBody with
        | .ok b => .ok (.resolvedBlob b)
        | .error msg => .error msg
      else .error ("HTTP " ++ toString resp.status)
    | .json =>
      match resp.jsonBody with
      | .ok v => .ok (.resolvedJson v)
      | .error _ => .ok (.resolvedJson (.jobj []))

/-- Embedding of `apiCall`: build the url and init (an exception thrown
there — by `window.btoa` or `JSON.stringify`, both outside the try block —
escapes, rejecting the returned promise: the outer `.error`), then run
`fetch` (modelled as a function from url and init to an outcome) and
convert any exception of the try body into the resolved `FAILED` object. -/
def apiCall (windowDefined : Bool) (base : String) (i : ApiInput)
    (fetch : String → RequestInit → FetchOutcome) :
    Except String ApiResult :=
  match buildInit windowDefined i with
  | .error e => .error e
  | .ok init =>
    .ok
      (match apiCallTry i (fetch (base ++ i.endpoint) init) with
       | .ok r => r
       | .error msg => .resolvedJson (failedResult msg))

/-! ### Document model and tokenization

The backend retrieval core is not part of the source snapshot; the
definitions below are modelled from the specification text. -/

/-- Modelled from the spec: a chunk of document text —
`\x7bid: string, source_file: string, text: string, order: int\x7d`,
immutable, identified by `id`.  The missing source is `rag/service.py`. -/
structure Chunk where
  id : String
  source_file : String
  text : String
  order : Nat

/-- Whitespace characters that separate tokens. -/
def isSep (c : Char) : Bool := c == ' ' || c == '\n' || c == '\t' || c == '\r'

/-- The punctuation characters stripped by tokenization. -/
def isPunct (c : Char) : Bool :=
  c == ',' || c == '.' || c == '!' || c == '?' || c == ';' || c == ':' ||
  c == '(' || c == ')'

/-- Split a character stream at separator characters, accumulating the
current token in reverse. -/
def splitChars : List Char → List Char → List (List Char)
  | [], acc => if acc.isEmpty then [] else [acc.reverse]
  | c :: cs, acc =>
    if isSep c then
      (if acc.isEmpty then splitChars cs [] else acc.reverse :: splitChars cs [])
    else splitChars cs (c :: acc)

/-- Modelled from the spec: tokenization for the Lexical Index — lowercase,
strip punctuation, split on whitespace; CJK-internal segmentation beyond
whitespace splitting is not modelled.  The missing source is
`_build_bm25_index` in `rag/service.py`. -/
def tokenize (s : String) : List String :=
  (((splitChars s.data []).map
      (fun t => (t.map Char.toLower).filter (fun c => !isPunct c))).filter
    (fun t => !t.isEmpty)).map String.mk

/-! ### Lexical Index (BM25) -/

/-- Modelled from the spec: a built Lexical Index — the tokenized chunks,
keyed by chunk id, from which postings and statistics are derived.  The
missing source is `_build_bm25_index` in `rag/service.py`. -/
structure LexicalIndex where
  docs : List (String × List String)

/-- Modelled from the spec: `build(chunks)` for the Lexical Index. -/
def buildLexical (chunks : List Chunk) : LexicalIndex :=
  ⟨chunks.map (fun c => (c.id, tokenize c.text))⟩

/-- The BM25 constant `k1 ≈ 1.5` given by the spec. -/
def bm25K1 : ℚ := 3 / 2

/-- The BM25 constant `b ≈ 0.75` given by the spec. -/
def bm25B : ℚ := 3 / 4

/-- Term frequency of `t` in a tokenized document. -/
def termFreq (t : String) (doc : List String) : Nat := doc.count t

/-- Document frequency: the number of indexed documents containing `t`. -/
def docFreq (idx : LexicalIndex) (t : String) : Nat :=
  (idx.docs.filter (fun d => d.2.contains t)).length

/-- Average tokenized document length of the index, as a rational. -/
def avgdl (idx : LexicalIndex) : ℚ :=
  ((idx.docs.map (fun d => d.2.length)).sum : ℚ) / (idx.docs.length : ℚ)

/-- Modelled from the spec: the BM25-family score of one document for a
query — for each query term `t`, contribution
`idf(t) * (tf*(k1+1)) / (tf + k1*(1-b+b*|d|/avgdl))`.  The spec leaves the
exact `idf` formula open, so `idf` is a parameter taking the corpus size
and the document frequency of the term. -/
def bm25Score (idf : Nat → Nat → ℚ) (idx : LexicalIndex)
    (qtoks : List String) (doc : List String) : ℚ :=
  (qtoks.map (fun t =>
      idf idx.docs.length (docFreq idx t) *
          ((termFreq t doc : ℚ) * (bm25K1 + 1)) /
        ((termFreq t doc : ℚ) +
          bm25K1 * (1 - bm25B + bm25B * (doc.length : ℚ) / avgdl idx)))).sum

/-- Modelled from the spec: `search(query, top_k)` on the Lexical Index.
Only documents sharing at least one token with the query enter the
candidate set; candidates are ordered by BM25 score descending (stable
sort) and truncated to `top_k`.  The missing source is `_bm25_search` in
`rag/service.py`. -/
def lexicalSearch (idf : Nat → Nat → ℚ) (idx : LexicalIndex)
    (query : String) (top_k : Nat) : List (String × ℚ) :=
  let qtoks := tokenize query
  let cands := idx.docs.filter (fun d => qtoks.any (fun t => d.2.contains t))
  ((cands.map (fun d => (d.1, bm25Score idf idx qtoks d.2))).mergeSort
      (fun a b => decide (b.2 ≤ a.2))).take top_k

/-! ### Fusion Ranker (Reciprocal Rank Fusion) -/

/-- The 1-based rank of a chunk id in a ranked list, `none` when absent.
This is the claim-side notion of rank used to state correctness of the
fused scores. -/
def rankOf : List String → String → Option Nat
  | [], _ => none
  | x :: xs, c => if x = c then some 1 else (rankOf xs c).map (· + 1)

/-- The contribution `1/(k + rank)` of one ranked list to a chunk's fused
score; a chunk absent from the list contributes nothing. -/
def rrfContribution (k : ℚ) (l : List String) (c : String) : ℚ :=
  match rankOf l c with
  | some r => 1 / (k + (r : ℚ))
  | none => 0

/-- The fused score the spec assigns a candidate: the sum, over the source
lists containing it, of `1/(k + rank)`. -/
def rrfScore (k : ℚ) (lexical vector : List String) (c : String) : ℚ :=
  rrfContribution k lexical c + rrfContribution k vector c

/-- Add `s` to the accumulated score of `c` in an association list,
appending a fresh entry when `c` is absent. -/
def addScore : List (String × ℚ) → String → ℚ → List (String × ℚ)
  | [], c, s => [(c, s)]
  | (c', s') :: rest, c, s =>
    if c' = c then (c', s' + s) :: rest else (c', s') :: addScore rest c s

/-- Modelled from the spec: the accumulation pass of reciprocal rank
fusion — walk one ranked list, adding `1/(k + rank)` to each chunk's
accumulated score, where `r` is the rank of the head of the remaining
list.  The missing source is `_reciprocal_rank_fusion` in
`rag/service.py`. -/
def accumRrf (k : ℚ) : ℚ → List String → List (String × ℚ) → List (String × ℚ)
  | _, [], acc => acc
  | r, c :: cs, acc => accumRrf k (r + 1) cs (addScore acc c (1 / (k + r)))

/-- The comparator ordering fused results: fused score descending, ties
broken by chunk id ascending. -/
def fuseLe (a b : String × ℚ) : Bool :=
  decide (b.2 < a.2 ∨ (a.2 = b.2 ∧ a.1 ≤ b.1))

/-- Modelled from the spec: `fuse(lexical_results, vector_results, k_const)`
— accumulate `1/(k + rank)` once per source list in which a chunk appears,
then order by total fused score descending with deterministic tie-break by
chunk id ascending.  The missing source is `_reciprocal_rank_fusion` in
`rag/service.py`. -/
def fuse (lexical vector : List String) (k : ℚ) : List (String × ℚ) :=
  (accumRrf k 1 vector (accumRrf k 1 lexical [])).mergeSort fuseLe

/-- The spec-side closed form of the contribution of a list walked from
rank `r` onward; used to relate the accumulation pass to `rrfScore`. -/
def contribFrom (k : ℚ) : ℚ → List String → String → ℚ
  | _, [], _ => 0
  | r, x :: xs, c =>
    (if x = c then 1 / (k + r) else 0) + contribFrom k (r + 1) xs c

/-- Accumulated score of a chunk in an association list (`0` when absent). -/
def lookupScore : List (String × ℚ) → String → ℚ
  | [], _ => 0
  | (c', s) :: rest, c => if c' = c then s else lookupScore rest c

/-! ### Reranker and hybrid search -/

/-- Modelled from the spec: a transient per-query ranked result —
`\x7bchunk_id, lexical_score?, vector_score?, fusion_score?, rerank_score?\x7d`
with absent scores modelled as `none`. -/
structure RankedResult where
  chunk_id : String
  lexical_score : Option ℚ
  vector_score : Option ℚ
  fusion_score : Option ℚ
  rerank_score : Option ℚ

/-- Modelled from the spec: `rerank(query, candidates, top_k)` — score each
candidate jointly with the query via a cross-encoder-style scorer (here a
function of the query and the candidate's chunk id, standing for its
text), re-sort by that score descending (fusion score kept only as
metadata), and truncate to `top_k`.  The missing source is
`_rerank_results` in `rag/service.py`. -/
def rerank (scorer : String → String → ℚ) (query : String)
    (candidates : List RankedResult) (top_k : Nat) : List RankedResult :=
  ((candidates.map
        (fun r => { r with rerank_score := some (scorer query r.chunk_id) })).mergeSort
      (fun a b => decide ((b.rerank_score.getD 0) ≤ (a.rerank_score.getD 0)))).take
    top_k

/-- Modelled from the spec: the retrieval error taxonomy. -/
inductive SearchError where
  | indexUnavailable
  | indexBuilding
  | embeddingVersionMismatch
  | extractionFailure (msg : String)
  deriving DecidableEq

/-- Modelled from the spec: the response of the hybrid query interface —
ranked results, the search method, and the `reranked` flag. -/
structure HybridResponse where
  results : List RankedResult
  search_method : String
  reranked : Bool

/-- Lift a fused `(chunk_id, fusion_score)` pair to a `RankedResult`. -/
def ofFused (p : String × ℚ) : RankedResult :=
  { chunk_id := p.1, lexical_score := none, vector_score := none,
    fusion_score := some p.2, rerank_score := none }

/-- Modelled from the spec: hybrid search over already-retrieved lexical and
vector candidate lists — fuse them, then optionally hand the fused top-K
to the reranker.  A missing reranker (`reranker = none`) degrades to
pass-through with `reranked := false`; it is never surfaced as an error.
The missing source is `rag_search_hybrid` in `rag/service.py`. -/
def hybridSearch (lexical vector : List String) (k : ℚ)
    (reranker : Option (String → String → ℚ)) (query : String) (top_k : Nat)
    (use_reranking : Bool) : Except SearchError HybridResponse :=
  let fused := (fuse lexical vector k).map ofFused
  match use_reranking, reranker with
  | true, some scorer =>
    .ok { results := rerank scorer query (fused.take top_k) top_k
        , search_method := "hybrid", reranked := true }
  | true, none =>
    .ok { results := fused.take top_k, search_method := "hybrid"
        , reranked := false }
  | false, _ =>
    .ok { results := fused.take top_k, search_method := "hybrid"
        , reranked := false }

/-! ### Vector Index -/

/-- Modelled from the spec: the embedding capability —
`embed(text) -> float[d]`, deterministic per model version. -/
structure Embedder where
  version : String
  dim : Nat
  embed : String → List ℚ

/-- Modelled from the spec: a persisted Vector Index — the embedding
dimension it was built with and one `\x7bchunk_id, embedding\x7d` record per
chunk.  The missing source is `rag_build_or_load_index` in
`rag/service.py`. -/
structure VectorIndex where
  dim : Nat
  records : List (String × List ℚ)

/-- Modelled from the spec: `build(chunks, embedder)` for the Vector Index —
each chunk embedded once at build time. -/
def buildVector (chunks : List Chunk) (emb : Embedder) : VectorIndex :=
  ⟨emb.dim, chunks.map (fun c => (c.id, emb.embed c.text))⟩

/-- Inner product of two embeddings (similarity over L2-normalized
vectors, per the spec). -/
def dotProduct (u v : List ℚ) : ℚ := (u.zipWith (· * ·) v).sum

/-- Modelled from the spec: `search(query, top_k)` on the Vector Index —
fail with `EmbeddingVersionMismatch` when the persisted index dimension
differs from the active embedder's dimension, never silently truncating or
padding; otherwise rank by similarity descending (stable sort, ties kept
in insertion order) and truncate to `top_k`. -/
def vectorSearch (idx : VectorIndex) (emb : Embedder) (query : String)
    (top_k : Nat) : Except SearchError (List (String × ℚ)) :=
  if idx.dim = emb.dim then
    .ok (((idx.records.map (fun r => (r.1, dotProduct r.2 (emb.embed query)))).mergeSort
        (fun a b => decide (b.2 ≤ a.2))).take top_k)
  else .error .embeddingVersionMismatch

/-! ### GraphRAG knowledge graph -/

/-- Modelled from the spec: the GraphRAG lifecycle states
`absent → building → ready`, `building → error`. -/
inductive GStatus where
  | absent
  | building
  | ready
  | error
  deriving DecidableEq

/-- Modelled from the spec: the LLM extraction capability —
`extract_triples(text) -> list<(entity, entity, predicate)>`, fallible. -/
def Extractor : Type := String → Except String (List (String × String × String))

/-- A graph under construction: distinct entity names and weighted edges. -/
structure RawGraph where
  nodes : List String
  edges : List ((String × String) × Nat)

/-- Add an entity name to the node list if not already present. -/
def addNode (ns : List String) (e : String) : List String :=
  if ns.contains e then ns else ns ++ [e]

/-- Accumulate an edge: bump the weight of an existing relation or append
it with weight 1. -/
def addEdge : List ((String × String) × Nat) → String × String →
    List ((String × String) × Nat)
  | [], p => [(p, 1)]
  | (q, w) :: rest, p =>
    if q = p then (q, w + 1) :: rest else (q, w) :: addEdge rest p

/-- Modelled from the spec: fold one extracted triple into the graph —
nodes are distinct entity names, edges accumulate weight. -/
def insertTriple (g : RawGraph) (t : String × String × String) : RawGraph :=
  { nodes := addNode (addNode g.nodes t.1) t.2.1
  , edges := addEdge g.edges (t.1, t.2.1) }

/-- Fold all triples extracted from one chunk into the graph. -/
def insertChunkTriples (g : RawGraph) (ts : List (String × String × String)) :
    RawGraph :=
  ts.foldl insertTriple g

/-- Modelled from the spec: the extraction phase of a GraphRAG build — call
the external extractor once per processed chunk, accumulating triples into
one graph; the first extractor failure aborts the build
(`building → error`). -/
def extractAll (extract : Extractor) (chunks : List Chunk) :
    Except String RawGraph :=
  chunks.foldlM (fun g c => (extract c.text).map (insertChunkTriples g))
    ⟨[], []⟩

/-- Merge the groups containing `a` and `b` in a partition of entities. -/
def mergeGroups (part : List (List String)) (a b : String) :
    List (List String) :=
  let ga := ((part.find? (fun g => g.contains a)).getD [a])
  let gb := ((part.find? (fun g => g.contains b)).getD [b])
  if ga = gb then part
  else (part.filter (fun g => g ≠ ga && g ≠ gb)) ++ [ga ++ gb]

/-- Modelled from the spec: the community-detection pass, run once per build
over the complete graph.  The spec's modularity clustering (e.g. Louvain)
is modelled by connected components of the accumulated edge set — the one
structural property the claims rely on is that the pass runs over the full
graph of a single build. -/
def communityGroups (g : RawGraph) : List (List String) :=
  g.edges.foldl (fun part e => mergeGroups part e.1.1 e.1.2)
    (g.nodes.map (fun n => [n]))

/-- The community id of an entity: the index of its group. -/
def communityIdOf (groups : List (List String)) (e : String) : Nat :=
  groups.findIdx (fun g => g.contains e)

/-- Modelled from the spec: a completed GraphRAG index — nodes with
community assignment (`GraphRagNode`), weighted edges (`GraphRagEdge`). -/
structure KGraph where
  nodes : List String
  edges : List ((String × String) × Nat)
  communities : List (String × Nat)

/-- Commit a fully-built raw graph: compute communities over the complete
graph and attach each node's community id. -/
def finalizeGraph (g : RawGraph) : KGraph :=
  { nodes := g.nodes, edges := g.edges
  , communities :=
      g.nodes.map (fun n => (n, communityIdOf (communityGroups g) n)) }

/-- Modelled from the spec: the result reported by a GraphRAG build. -/
structure BuildResult where
  success : Bool
  doc_count : Nat
  error : Option String

/-- Modelled from the spec: the process-wide GraphRAG index state —
lifecycle status, the committed ready graph (kept across failed rebuilds),
and the last build error. -/
structure GraphRagStore where
  status : GStatus
  graph : Option KGraph
  lastError : Option String

/-- The initial GraphRAG state: no graph, status `absent`. -/
def graphragInit : GraphRagStore := ⟨.absent, none, none⟩

/-- Modelled from the spec: `build(chunks, llm_extractor, max_chunks)` —
explicitly triggered, bounded by `max_chunks`; on success the new graph is
committed atomically and the number of processed chunks is reported as
`doc_count`; on extractor failure the partial graph is discarded, the
state becomes `error`, and a previously ready graph stays in place. -/
def graphragBuild (extract : Extractor) (max_chunks : Nat)
    (chunks : List Chunk) (st : GraphRagStore) : GraphRagStore × BuildResult :=
  match extractAll extract (chunks.take max_chunks) with
  | .ok g =>
    ({ status := .ready, graph := some (finalizeGraph g), lastError := none },
     { success := true, doc_count := (chunks.take max_chunks).length
     , error := none })
  | .error e =>
    ({ status := .error, graph := st.graph, lastError := some e },
     { success := false, doc_count := 0, error := some e })

/-- Modelled from the spec: `clear()` — forces the GraphRAG state back to
`absent` regardless of the current state. -/
def graphragClear (_st : GraphRagStore) : GraphRagStore := ⟨.absent, none, none⟩

/-- Modelled from the spec: the lifecycle status snapshot reported for the
GraphRAG index. -/
def graphragStatus (st : GraphRagStore) : GStatus := st.status

/-- Entities reachable in one hop from a matched entity set. -/
def neighborEntities (g : KGraph) (ms : List String) : List String :=
  (g.edges.filter (fun e => ms.contains e.1.1 || ms.contains e.1.2)).map
    (fun e => if ms.contains e.1.1 then e.1.2 else e.1.1)

/-- Community id attached to a returned entity. -/
def communityLookup (g : KGraph) (n : String) : Nat :=
  ((g.communities.find? (fun p => p.1 == n)).map Prod.snd).getD 0

/-- Whether the pattern (first argument) occurs at the head of the
character list. -/
def charsStartWith : List Char → List Char → Bool
  | [], _ => true
  | _ :: _, [] => false
  | p :: ps, c :: cs => p == c && charsStartWith ps cs

/-- Whether the pattern (first argument) occurs contiguously anywhere in the
character list: the substring test used by graph search. -/
def charsContain (pat : List Char) : List Char → Bool
  | [] => pat.isEmpty
  | c :: cs => charsStartWith pat (c :: cs) || charsContain pat cs

/-- Modelled from the spec: `search(query, top_k, include_neighbors)` on the
GraphRAG index — match query tokens to entity names (exact or substring),
optionally expand one hop, attach community ids; fails with
`IndexUnavailable` when no graph is committed. -/
def graphragSearch (st : GraphRagStore) (query : String) (top_k : Nat)
    (include_neighbors : Bool) : Except SearchError (List (String × Nat)) :=
  match st.graph with
  | none => .error .indexUnavailable
  | some g =>
    let qtoks := tokenize query
    let matched := g.nodes.filter
      (fun n => qtoks.any (fun t => n == t || charsContain t.data n.data))
    let expanded :=
      if include_neighbors then matched ++ neighborEntities g matched
      else matched
    .ok ((expanded.dedup.map (fun n => (n, communityLookup g n))).take top_k)

/-! ### Concrete scenario data -/

/-- The 3-chunk corpus of the lexical-search scenario: exactly one chunk
contains the phrase "매출 성장률". -/
def corpus3 : List Chunk :=
  [⟨"c1", "f.txt", "매출 성장률", 0⟩,
   ⟨"c2", "f.txt", "고객 추천", 1⟩,
   ⟨"c3", "f.txt", "이상 탐지", 2⟩]

/-- A 10-chunk corpus for the GraphRAG build-bound scenario. -/
def corpus10 : List Chunk :=
  [⟨"c0", "f.txt", "텍스트", 0⟩, ⟨"c1", "f.txt", "텍스트", 1⟩,
   ⟨"c2", "f.txt", "텍스트", 2⟩, ⟨"c3", "f.txt", "텍스트", 3⟩,
   ⟨"c4", "f.txt", "텍스트", 4⟩, ⟨"c5", "f.txt", "텍스트", 5⟩,
   ⟨"c6", "f.txt", "텍스트", 6⟩, ⟨"c7", "f.txt", "텍스트", 7⟩,
   ⟨"c8", "f.txt", "텍스트", 8⟩, ⟨"c9", "f.txt", "텍스트", 9⟩]

/-- An extractor that always succeeds with no triples; used to witness the
build-bound scenario. -/
def trivialExtractor : Extractor := fun _ => .ok []

/-- An extractor that always fails, modelling an LLM outage mid-build. -/
def failExtractor : Extractor := fun _ => .error "LLM extraction failed"

/-- A store holding a successfully built (ready) GraphRAG index; used to
witness that a failed rebuild leaves the previous index intact. -/
def stReady : GraphRagStore :=
  (graphragBuild trivialExtractor 2 corpus10 graphragInit).1

/-- Embedder version 1 of the dimension-mismatch scenario. -/
def embV1 : Embedder := ⟨"v1", 3, fun _ => [1, 0, 0]⟩

/-- Embedder version 2 of the dimension-mismatch scenario: a model upgrade
changed the embedding dimension. -/
def embV2 : Embedder := ⟨"v2", 4, fun _ => [1, 0, 0, 0]⟩

/-- A concrete `apiCall` input used to witness the failure-shape theorem. -/
def exApiInput : ApiInput :=
  ⟨"/api/health", "GET", none, none, 60000, [], .json⟩

/-- An `apiCall` input whose basic-auth credentials hold characters above
U+00FF (a Korean username), on which `window.btoa` throws. -/
def exKoreanAuthInput : ApiInput :=
  ⟨"/api/login", "POST", none, some ("관리자", "admin123"), 60000, [], .json⟩

/-- An `apiCall` input whose `data` is a circular structure, on which
`JSON.stringify` throws. -/
def exCircularDataInput : ApiInput :=
  ⟨"/api/agent/chat", "POST",
    some (.unserializable "Converting circular structure to JSON"), none,
    60000, [], .json⟩

/-- A benign fetch response: OK status with a parsable empty-object body. -/
def exOkResponse : FetchResponse := ⟨true, 200, .ok (.jobj []), .ok []⟩

/-- A concrete stand-in for `JSON.parse` used to witness the storage-helper
theorem: parses the string "1" and rejects everything else. -/
def exParse : String → Except String JsVal :=
  fun s => if s = "1" then .ok (.jnum 1) else .error "Unexpected token"

/-! ## Theorems -/

/-! ### Fusion Ranker lemmas -/

theorem lookupScore_addScore_self (acc : List (String × ℚ)) (c : String) (s : ℚ) :
    lookupScore (addScore acc c s) c = lookupScore acc c + s := by
  induction acc with
  | nil => simp [addScore, lookupScore]
  | cons hd tl ih =>
    obtain ⟨c₁, s₁⟩ := hd
    by_cases h : c₁ = c
    · subst h; simp [addScore, lookupScore]
    · simp [addScore, lookupScore, h, ih]

theorem lookupScore_addScore_ne (acc : List (String × ℚ)) (c c' : String)
    (s : ℚ) (h : c' ≠ c) :
    lookupScore (addScore acc c s) c' = lookupScore acc c' := by
  induction acc with
  | nil => simp [addScore, lookupScore, Ne.symm h]
  | cons hd tl ih =>
    obtain ⟨c₁, s₁⟩ := hd
    by_cases h₁ : c₁ = c
    · subst h₁; simp [addScore, lookupScore, Ne.symm h, h]
    · by_cases h₂ : c₁ = c' <;> simp [addScore, lookupScore, h₁, h₂, h, ih]

theorem mem_keys_addScore (acc : List (String × ℚ)) (c x : String) (s : ℚ) :
    x ∈ (addScore acc c s).map Prod.fst ↔ x = c ∨ x ∈ acc.map Prod.fst := by
  induction acc with
  | nil => simp [addScore]
  | cons hd tl ih =>
    obtain ⟨c₁, s₁⟩ := hd
    by_cases h : c₁ = c
    · subst h; simp [addScore]
    · simp [addScore, h, ih]; tauto

theorem nodup_keys_addScore (acc : List (String × ℚ)) (c : String) (s : ℚ)
    (h : (acc.map Prod.fst).Nodup) :
    ((addScore acc c s).map Prod.fst).Nodup := by
  induction acc with
  | nil => simp [addScore]
  | cons hd tl ih =>
    obtain ⟨c₁, s₁⟩ := hd
    simp only [List.map_cons, List.nodup_cons] at h
    by_cases hc : c₁ = c
    · subst hc
      simpa [addScore] using h
    · simp only [addScore, if_neg hc, List.map_cons, List.nodup_cons]
      refine ⟨?_, ih h.2⟩
      rw [mem_keys_addScore]
      rintro (rfl | hm)
      · exact hc rfl
      · exact h.1 hm

theorem lookupScore_of_mem (acc : List (String × ℚ)) (c : String) (s : ℚ)
    (hnd : (acc.map Prod.fst).Nodup) (h : (c, s) ∈ acc) :
    lookupScore acc c = s := by
  induction acc with
  | nil => cases h
  | cons hd tl ih =>
    obtain ⟨c₁, s₁⟩ := hd
    simp only [List.map_cons, List.nodup_cons] at hnd
    rcases List.mem_cons.1 h with h | h
    · injection h with h1 h2
      subst h1; subst h2
      simp [lookupScore]
    · by_cases hc : c₁ = c
      · exact absurd (List.mem_map.2 ⟨(c, s), h, rfl⟩) (hc ▸ hnd.1)
      · simpa [lookupScore, hc] using ih hnd.2 h

theorem lookupScore_accumRrf (k : ℚ) (l : List String) :
    ∀ (r : ℚ) (acc : List (String × ℚ)) (c : String),
      lookupScore (accumRrf k r l acc) c =
        lookupScore acc c + contribFrom k r l c := by
  induction l with
  | nil => intro r acc c; simp [accumRrf, contribFrom]
  | cons x xs ih =>
    intro r acc c
    by_cases h : x = c
    · subst h
      simp [accumRrf, contribFrom, ih, lookupScore_addScore_self]
      ring
    · simp [accumRrf, contribFrom, h, ih,
        lookupScore_addScore_ne _ _ _ _ (Ne.symm h)]

theorem mem_keys_accumRrf (k : ℚ) (l : List String) :
    ∀ (r : ℚ) (acc : List (String × ℚ)) (x : String),
      x ∈ (accumRrf k r l acc).map Prod.fst ↔
        x ∈ l ∨ x ∈ acc.map Prod.fst := by
  induction l with
  | nil => intro r acc x; simp [accumRrf]
  | cons y ys ih =>
    intro r acc x
    simp only [accumRrf, ih, mem_keys_addScore, List.mem_cons]
    tauto

theorem nodup_keys_accumRrf (k : ℚ) (l : List String) :
    ∀ (r : ℚ) (acc : List (String × ℚ)), (acc.map Prod.fst).Nodup →
      ((accumRrf k r l acc).map Prod.fst).Nodup := by
  induction l with
  | nil => intro r acc h; simpa [accumRrf] using h
  | cons y ys ih =>
    intro r acc h
    simp only [accumRrf]
    exact ih _ _ (nodup_keys_addScore _ _ _ h)

theorem contribFrom_of_not_mem (k : ℚ) (l : List String) (c : String)
    (h : c ∉ l) : ∀ r : ℚ, contribFrom k r l c = 0 := by
  induction l with
  | nil => intro r; simp [contribFrom]
  | cons x xs ih =>
    intro r
    simp only [List.mem_cons, not_or] at h
    simp [contribFrom, Ne.symm h.1, ih h.2]

theorem rankOf_eq_none_iff (l : List String) (c : String) :
    rankOf l c = none ↔ c ∉ l := by
  induction l with
  | nil => simp [rankOf]
  | cons x xs ih =>
    by_cases h : x = c
    · subst h; simp [rankOf]
    · simp [rankOf, h, Option.map_eq_none', ih, Ne.symm h]

theorem contribFrom_of_rankOf (k : ℚ) (l : List String) (c : String)
    (hl : l.Nodup) :
    ∀ (r : ℚ) (ρ : Nat), rankOf l c = some ρ →
      contribFrom k r l c = 1 / (k + r + (ρ : ℚ) - 1) := by
  induction l with
  | nil => intro r ρ h; simp [rankOf] at h
  | cons x xs ih =>
    intro r ρ h
    rcases List.nodup_cons.1 hl with ⟨hx, hxs⟩
    by_cases hc : x = c
    · subst hc
      have hr1 : rankOf (x :: xs) x = some 1 := by simp [rankOf]
      rw [hr1] at h
      injection h with h
      subst h
      have hnm : x ∉ xs := hx
      simp [contribFrom, contribFrom_of_not_mem k xs x hnm]
    · simp only [rankOf, if_neg hc] at h
      rcases Option.map_eq_some'.1 h with ⟨ρ', hρ', rfl⟩
      simp only [contribFrom, if_neg hc, zero_add]
      rw [ih hxs (r + 1) ρ' hρ']
      congr 1
      push_cast
      ring

theorem rrfContribution_eq_contribFrom (k : ℚ) (l : List String) (c : String)
    (hl : l.Nodup) : rrfContribution k l c = contribFrom k 1 l c := by
  cases hρ : rankOf l c with
  | none =>
    have hnm : c ∉ l := (rankOf_eq_none_iff l c).1 hρ
    simp [rrfContribution, hρ, contribFrom_of_not_mem k l c hnm 1]
  | some ρ =>
    rw [rrfContribution, hρ, contribFrom_of_rankOf k l c hl 1 ρ hρ]
    ring_nf

theorem fuseLe_trans :
    ∀ a b c : String × ℚ, fuseLe a b → fuseLe b c → fuseLe a c := by
  intro a b c hab hbc
  simp only [fuseLe, decide_eq_true_eq] at hab hbc ⊢
  rcases hab with h1 | ⟨h1, h1'⟩ <;> rcases hbc with h2 | ⟨h2, h2'⟩
  · exact Or.inl (lt_trans h2 h1)
  · exact Or.inl (h2 ▸ h1)
  · exact Or.inl (h1 ▸ h2)
  · exact Or.inr ⟨h1.trans h2, le_trans h1' h2'⟩

theorem fuseLe_total : ∀ a b : String × ℚ, fuseLe a b || fuseLe b a := by
  intro a b
  simp only [fuseLe, Bool.or_eq_true, decide_eq_true_eq]
  rcases lt_trichotomy a.2 b.2 with h | h | h
  · exact Or.inr (Or.inl h)
  · rcases le_total a.1 b.1 with h' | h'
    · exact Or.inl (Or.inr ⟨h, h'⟩)
    · exact Or.inr (Or.inr ⟨h.symm, h'⟩)
  · exact Or.inl (Or.inl h)

/-- C1: the Fusion Ranker assigns each candidate a score equal to the sum,
over the source lists containing it, of `1/(k + rank)` with 1-based ranks
(`rrfScore`); a chunk appears in the fused output exactly when it appears
in some input list, each candidate appears once, and the output is ordered
by fused score descending with ties broken by chunk id ascending. -/
theorem fuse_rrf_correct (lexical vector : List String) (k : ℚ)
    (hlex : lexical.Nodup) (hvec : vector.Nodup) :
    (∀ p ∈ fuse lexical vector k, p.2 = rrfScore k lexical vector p.1) ∧
    (∀ c, c ∈ (fuse lexical vector k).map Prod.fst ↔
      c ∈ lexical ∨ c ∈ vector) ∧
    ((fuse lexical vector k).map Prod.fst).Nodup ∧
    (fuse lexical vector k).Pairwise
      (fun a b => b.2 < a.2 ∨ (a.2 = b.2 ∧ a.1 ≤ b.1)) := by
  have hnd :
      ((accumRrf k 1 vector (accumRrf k 1 lexical [])).map Prod.fst).Nodup :=
    nodup_keys_accumRrf _ _ _ _ (nodup_keys_accumRrf _ _ _ _ (by simp))
  refine ⟨?_, ?_, ?_, ?_⟩
  · rintro ⟨c, s⟩ hp
    have hmem : (c, s) ∈ accumRrf k 1 vector (accumRrf k 1 lexical []) :=
      List.mem_mergeSort.1 hp
    have hs := lookupScore_of_mem _ _ _ hnd hmem
    have hval : lookupScore (accumRrf k 1 vector (accumRrf k 1 lexical [])) c =
        contribFrom k 1 lexical c + contribFrom k 1 vector c := by
      rw [lookupScore_accumRrf, lookupScore_accumRrf]
      simp [lookupScore]
    show s = rrfScore k lexical vector c
    rw [← hs, hval, rrfScore,
      rrfContribution_eq_contribFrom _ _ _ hlex,
      rrfContribution_eq_contribFrom _ _ _ hvec]
  · intro c
    have hiff : c ∈ (fuse lexical vector k).map Prod.fst ↔
        c ∈ (accumRrf k 1 vector (accumRrf k 1 lexical [])).map Prod.fst := by
      simp [fuse, List.mem_map]
    rw [hiff, mem_keys_accumRrf, mem_keys_accumRrf]
    simp
    tauto
  · exact ((List.mergeSort_perm _ fuseLe).map Prod.fst).nodup_iff.2 hnd
  · have hs := @List.sorted_mergeSort (String × ℚ) fuseLe fuseLe_trans fuseLe_total
      (accumRrf k 1 vector (accumRrf k 1 lexical []))
    exact hs.imp (fun h => by simpa [fuseLe, decide_eq_true_eq] using h)

/-- Witness for C1: concrete duplicate-free rankings satisfy the
hypotheses; the fused output over them lists each candidate once. -/
theorem fuse_rrf_correct_witness :
    (["a", "b"] : List String).Nodup ∧ (["b", "c"] : List String).Nodup ∧
      ((fuse ["a", "b"] ["b", "c"] 60).map Prod.fst).Nodup :=
  ⟨by decide, by decide,
    (fuse_rrf_correct ["a", "b"] ["b", "c"] 60 (by decide) (by decide)).2.2.1⟩

/-- C2: a document whose tokenized text shares no term with the query never
enters the lexical candidate list (excluded entirely, not ranked last with
score 0); and in the 3-chunk scenario the query "성장률" returns the chunk
containing "매출 성장률" as top-1 with a nonzero BM25 score while the
disjoint chunk "c3" is absent from the candidates. -/
theorem lexical_disjoint_excluded (idf : Nat → Nat → ℚ) :
    (∀ (chunks : List Chunk) (query : String) (top_k : Nat) (c : Chunk),
      c ∈ chunks → (chunks.map Chunk.id).Nodup →
      (∀ t ∈ tokenize query, t ∉ tokenize c.text) →
      c.id ∉ (lexicalSearch idf (buildLexical chunks) query top_k).map
        Prod.fst) ∧
    (0 < idf 3 1 →
      ∃ s, lexicalSearch idf (buildLexical corpus3) "성장률" 3 =
          [("c1", s)] ∧ 0 < s ∧
        "c3" ∉ (lexicalSearch idf (buildLexical corpus3) "성장률" 3).map
          Prod.fst) := by
  constructor
  · intro chunks query top_k c hc hnd hdisj hmem
    simp only [lexicalSearch, buildLexical] at hmem
    rcases List.mem_map.1 hmem with ⟨p, hp, hpid⟩
    have hp2 := List.mem_mergeSort.1 (List.take_subset _ _ hp)
    rcases List.mem_map.1 hp2 with ⟨d, hd, rfl⟩
    have hd1 := List.mem_filter.1 hd
    rcases List.mem_map.1 hd1.1 with ⟨c', hc', rfl⟩
    have hcc : c' = c := List.inj_on_of_nodup_map hnd hc' hc hpid
    subst hcc
    rcases List.any_eq_true.1 hd1.2 with ⟨t, ht, htc⟩
    simp only [List.contains, List.elem_eq_mem, decide_eq_true_eq] at htc
    exact hdisj t ht htc
  · intro hpos
    have hq : tokenize "성장률" = ["성장률"] := rfl
    have hcands : (buildLexical corpus3).docs.filter
        (fun d => (["성장률"] : List String).any (fun t => d.2.contains t)) =
        [("c1", ["매출", "성장률"])] := by decide
    have hdocs : (buildLexical corpus3).docs =
        [("c1", ["매출", "성장률"]), ("c2", ["고객", "추천"]),
          ("c3", ["이상", "탐지"])] := rfl
    have havg : avgdl (buildLexical corpus3) = 2 := by
      rw [avgdl, hdocs]
      norm_num [List.map_cons, List.sum_cons]
    have hdf : docFreq (buildLexical corpus3) "성장률" = 1 := by decide
    have htf : termFreq "성장률" ["매출", "성장률"] = 1 := by decide
    have hN : (buildLexical corpus3).docs.length = 3 := by decide
    have hscore : bm25Score idf (buildLexical corpus3) ["성장률"]
        ["매출", "성장률"] = idf 3 1 := by
      simp only [bm25Score, List.map_cons, List.map_nil, List.sum_cons,
        List.sum_nil, hdf, htf, havg, hN, bm25K1, bm25B]
      norm_num
    have hsearch : lexicalSearch idf (buildLexical corpus3) "성장률" 3 =
        [("c1", idf 3 1)] := by
      simp only [lexicalSearch, hq, hcands, List.map_cons, List.map_nil,
        List.mergeSort_singleton, hscore, List.take_succ_cons, List.take_nil]
    exact ⟨idf 3 1, hsearch, hpos, by rw [hsearch]; simp⟩

/-- Witness for C2: the scenario instantiated with the constant-1 idf. -/
theorem lexical_disjoint_excluded_witness :
    (0 : ℚ) < 1 ∧
      ∃ s, lexicalSearch (fun _ _ => 1) (buildLexical corpus3) "성장률" 3 =
          [("c1", s)] ∧ 0 < s ∧
        "c3" ∉ (lexicalSearch (fun _ _ => 1) (buildLexical corpus3) "성장률"
            3).map Prod.fst :=
  ⟨zero_lt_one, (lexical_disjoint_excluded (fun _ _ => 1)).2 zero_lt_one⟩

/-- C3: for every query, candidate list and `top_k`, the chunk ids returned
by the Reranker are a subset of the chunk ids of its input candidate list —
reranking only re-orders and truncates, it never introduces a new chunk. -/
theorem rerank_never_expands (scorer : String → String → ℚ) (query : String)
    (candidates : List RankedResult) (top_k : Nat) :
    (rerank scorer query candidates top_k).map RankedResult.chunk_id ⊆
      candidates.map RankedResult.chunk_id := by
  intro a ha
  rcases List.mem_map.1 ha with ⟨r, hr, rfl⟩
  have hr' := List.mem_mergeSort.1 (List.take_subset _ _ hr)
  rcases List.mem_map.1 hr' with ⟨r₀, hr₀, rfl⟩
  exact List.mem_map.2 ⟨r₀, hr₀, rfl⟩

/-- Witness for C3: the subset property at a concrete reranker, query and
candidate list. -/
theorem rerank_never_expands_witness :
    (rerank (fun _ _ => 1) "질의" [RankedResult.mk "a" none none none none]
        1).map RankedResult.chunk_id ⊆
      [RankedResult.mk "a" none none none none].map RankedResult.chunk_id :=
  rerank_never_expands (fun _ _ => 1) "질의"
    [RankedResult.mk "a" none none none none] 1

/-- C4: with the reranking model unavailable (`reranker = none`), hybrid
search with `use_reranking` requested succeeds (it is not an error), is
flagged `reranked = false`, and returns exactly the fusion-only response. -/
theorem hybrid_reranker_unavailable (lexical vector : List String) (k : ℚ)
    (query : String) (top_k : Nat) :
    ∃ resp : HybridResponse,
      hybridSearch lexical vector k none query top_k true = .ok resp ∧
      resp.reranked = false ∧
      hybridSearch lexical vector k none query top_k false = .ok resp :=
  ⟨_, rfl, rfl, rfl⟩

/-- C5: querying a persisted vector index whose embedding dimension differs
from the active embedder's dimension raises `EmbeddingVersionMismatch`
instead of returning similarities. -/
theorem vectorSearch_version_mismatch (idx : VectorIndex) (emb : Embedder)
    (query : String) (top_k : Nat) (h : idx.dim ≠ emb.dim) :
    vectorSearch idx emb query top_k = .error .embeddingVersionMismatch := by
  simp [vectorSearch, h]

/-- Witness for C5: an index built with embedder v1 (dimension 3) queried
under embedder v2 (dimension 4) raises the mismatch error. -/
theorem vectorSearch_version_mismatch_witness :
    (buildVector corpus3 embV1).dim ≠ embV2.dim ∧
      vectorSearch (buildVector corpus3 embV1) embV2 "성장률" 3 =
        .error .embeddingVersionMismatch :=
  ⟨by decide, vectorSearch_version_mismatch _ _ _ _ (by decide)⟩

/-- C6: when the extractor fails mid-build, the GraphRAG build transitions
to the `error` state, is not marked `ready`, discards the partial graph
(the committed graph is exactly the one from before the build), and a
previously ready index remains queryable with unchanged answers. -/
theorem graphrag_build_failure (extract : Extractor) (max_chunks : Nat)
    (chunks : List Chunk) (st : GraphRagStore) (e : String)
    (h : extractAll extract (chunks.take max_chunks) = .error e) :
    (graphragBuild extract max_chunks chunks st).1.status = .error ∧
    (graphragBuild extract max_chunks chunks st).1.status ≠ .ready ∧
    (graphragBuild extract max_chunks chunks st).1.graph = st.graph ∧
    ∀ query top_k include_neighbors,
      graphragSearch (graphragBuild extract max_chunks chunks st).1 query
          top_k include_neighbors =
        graphragSearch st query top_k include_neighbors := by
  refine ⟨by simp [graphragBuild, h], by simp [graphragBuild, h], by simp [graphragBuild, h], ?_⟩
  intro query top_k include_neighbors
  cases hg : st.graph <;> simp [graphragBuild, h, graphragSearch, hg]

/-- Witness for C6: a concrete failing extractor on a store holding a ready
index leaves the committed graph untouched. -/
theorem graphrag_build_failure_witness :
    extractAll failExtractor (corpus10.take 2) = .error "LLM extraction failed" ∧
      (graphragBuild failExtractor 2 corpus10 stReady).1.graph = stReady.graph :=
  ⟨rfl, (graphrag_build_failure failExtractor 2 corpus10 stReady _ rfl).2.2.1⟩

/-- C7: `clear()` followed by `status()` reports the GraphRAG index as
absent for every state, in particular immediately after any build. -/
theorem graphrag_clear_status_absent (st : GraphRagStore) (extract : Extractor)
    (max_chunks : Nat) (chunks : List Chunk) :
    graphragStatus (graphragClear st) = .absent ∧
      graphragStatus
          (graphragClear (graphragBuild extract max_chunks chunks st).1) =
        .absent :=
  ⟨rfl, rfl⟩

/-- C8: a GraphRAG build only processes the first `max_chunks` chunks (its
outcome is unchanged by truncating the corpus there), a successful build
reports the number of processed chunks as `doc_count`, and the scenario
build with `max_chunks = 2` over the 10-chunk corpus reports
`doc_count = 2`. -/
theorem graphrag_build_bounded (extract : Extractor) (max_chunks : Nat)
    (chunks : List Chunk) (st : GraphRagStore) :
    graphragBuild extract max_chunks chunks st =
      graphragBuild extract max_chunks (chunks.take max_chunks) st ∧
    (∀ g, extractAll extract (chunks.take max_chunks) = .ok g →
      (graphragBuild extract max_chunks chunks st).2.doc_count =
        min max_chunks chunks.length) ∧
    (graphragBuild trivialExtractor 2 corpus10 graphragInit).2.doc_count = 2 := by
  refine ⟨?_, ?_, rfl⟩
  · simp [graphragBuild, List.take_take]
  · intro g h
    simp [graphragBuild, h, List.length_take]

/-- Witness for C8: the scenario build processes
`min max_chunks corpus:= 2` chunks. -/
theorem graphrag_build_bounded_witness :
    (graphragBuild trivialExtractor 2 corpus10 graphragInit).2.doc_count =
      min 2 corpus10.length :=
  (graphrag_build_bounded trivialExtractor 2 corpus10 graphragInit).2.1
    ⟨[], []⟩ rfl

/-- Counterexample to C9 as stated: `apiCall` is not total over its inputs.
`window.btoa` (line 40) and `JSON.stringify` (line 44) run before the try
block, so Korean basic-auth credentials and circular `data` each make
`apiCall` reject — even though `fetch` itself would have succeeded. -/
theorem apiCall_rejects_outside_try :
    apiCall true "" exKoreanAuthInput (fun _ _ => .response exOkResponse) =
        .error "InvalidCharacterError" ∧
      apiCall true "" exCircularDataInput
          (fun _ _ => .response exOkResponse) =
        .error "TypeError: Converting circular structure to JSON" :=
  ⟨rfl, rfl⟩

/-- C9 (amended): `apiCall` can reject only with an exception of the
pre-try init construction (`window.btoa` on credentials above U+00FF,
`JSON.stringify` on non-serializable data); whenever that construction
succeeds, it never throws or rejects — a network failure or timeout abort
resolves to the `FAILED` object carrying the error message, a blob-mode
non-OK response resolves to the `FAILED` object carrying `HTTP <status>`,
and in json mode an unparsable body resolves to the empty object. -/
theorem apiCall_resolves_when_init_ok (windowDefined : Bool) (base : String)
    (i : ApiInput) (fetch : String → RequestInit → FetchOutcome) :
    (∀ e, apiCall windowDefined base i fetch = .error e →
      buildInit windowDefined i = .error e) ∧
    (∀ init, buildInit windowDefined i = .ok init →
      (∀ msg, fetch (base ++ i.endpoint) init = .networkError msg →
        apiCall windowDefined base i fetch =
          .ok (.resolvedJson (failedResult msg))) ∧
      (∀ msg, fetch (base ++ i.endpoint) init = .timeoutAbort msg →
        apiCall windowDefined base i fetch =
          .ok (.resolvedJson (failedResult msg))) ∧
      (∀ resp, fetch (base ++ i.endpoint) init = .response resp →
        i.responseType = .blob → resp.ok = false →
        apiCall windowDefined base i fetch =
          .ok (.resolvedJson (failedResult ("HTTP " ++ toString resp.status)))) ∧
      (∀ resp msg, fetch (base ++ i.endpoint) init = .response resp →
        i.responseType = .json → resp.jsonBody = .error msg →
        apiCall windowDefined base i fetch =
          .ok (.resolvedJson (.jobj [])))) := by
  constructor
  · intro e he
    cases hb : buildInit windowDefined i with
    | error e' => rw [apiCall, hb] at he; injection he with he; rw [he]
    | ok init => rw [apiCall, hb] at he; cases he
  · intro init hinit
    refine ⟨?_, ?_, ?_, ?_⟩
    · intro msg h; simp [apiCall, apiCallTry, hinit, h]
    · intro msg h; simp [apiCall, apiCallTry, hinit, h]
    · intro resp h hrt hok; simp [apiCall, apiCallTry, hinit, h, hrt, hok]
    · intro resp msg h hrt hbody
      simp [apiCall, apiCallTry, hinit, h, hrt, hbody]

/-- Witness for C9: on an input whose init construction succeeds, a
concrete network failure resolves to the `FAILED` object. -/
theorem apiCall_resolves_when_init_ok_witness :
    apiCall true "" exApiInput (fun _ _ => .networkError "Failed to fetch") =
      .ok (.resolvedJson (failedResult "Failed to fetch")) :=
  ((apiCall_resolves_when_init_ok true "" exApiInput
      (fun _ _ => .networkError "Failed to fetch")).2 _ rfl).1
    "Failed to fetch" rfl

/-- C10: `safeJsonParse` returns the fallback on falsy or unparsable input
and the parsed value otherwise, and `loadFromStorage` / `loadFromSession`
return the fallback whenever `window` is undefined or the stored entry is
missing or corrupt, and the stored parsed value otherwise. -/
theorem storage_helpers_total (parse : String → Except String JsVal)
    (storage session : String → Option String) (key : String)
    (fallback : JsVal) :
    (safeJsonParse parse none fallback = fallback) ∧
    (safeJsonParse parse (some "") fallback = fallback) ∧
    (∀ s msg, parse s = .error msg →
      safeJsonParse parse (some s) fallback = fallback) ∧
    (∀ s v, s ≠ "" → parse s = .ok v →
      safeJsonParse parse (some s) fallback = v) ∧
    (loadFromStorage parse false storage key fallback = fallback) ∧
    (storage key = none →
      loadFromStorage parse true storage key fallback = fallback) ∧
    (∀ s msg, storage key = some s → parse s = .error msg →
      loadFromStorage parse true storage key fallback = fallback) ∧
    (∀ s v, storage key = some s → s ≠ "" → parse s = .ok v →
      loadFromStorage parse true storage key fallback = v) ∧
    (loadFromSession parse false session key fallback = fallback) ∧
    (∀ s v, session key = some s → s ≠ "" → parse s = .ok v →
      loadFromSession parse true session key fallback = v) := by
  refine ⟨rfl, by simp [safeJsonParse], ?_, ?_, rfl, ?_, ?_, ?_, rfl, ?_⟩
  · intro s msg h
    by_cases hs : s = "" <;> simp [safeJsonParse, hs, h]
  · intro s v hs h
    simp [safeJsonParse, hs, h]
  · intro h
    simp [loadFromStorage, h, safeJsonParse]
  · intro s msg hk h
    by_cases hs : s = "" <;> simp [loadFromStorage, safeJsonParse, hk, hs, h]
  · intro s v hk hs h
    simp [loadFromStorage, safeJsonParse, hk, hs, h]
  · intro s v hk hs h
    simp [loadFromSession, safeJsonParse, hk, hs, h]

/-- Witness for C10: a concrete parsable stored entry is returned parsed. -/
theorem storage_helpers_total_witness :
    safeJsonParse exParse (some "1") .jnull = .jnum 1 :=
  (storage_helpers_total exParse (fun _ => none) (fun _ => none) "k"
    .jnull).2.2.2.1 "1" (.jnum 1) (by decide) rfl

end Retrieval
